import Mathlib

/-!
Verification of the momentbasket photo-sharing application (events app).

This file gives a shallow embedding of the pieces of the source that the
verified properties are about:

  * `events/validators.py` — `validate_photo_image`
  * `events/views.py`      — `event_upload`, `get_client_ip`
  * `events/utils.py`      — `get_event_qr_paths`, `generate_event_qr_code`
  * `events/admin_views.py`— `admin_download_event_data` (export bundler)

Python strings are Lean `String`s, optional attributes are `Option`s
(`none` models an absent attribute / `None`), machine files are finite
association lists, and Django querysets over a photo table are plain
lists.  Raising an exception is modelled by returning an error value of an
inductive result type.
-/

namespace Momentbasket

/-! ## Small string helpers (Python semantics) -/

/-- Last index of character `c` in `l`, or `none` (Python `str.rfind` is
`-1` when absent; we use `Option Nat`). -/
def lastIdx (c : Char) (l : List Char) : Option Nat :=
  (List.range l.length).foldl
    (fun acc i => if l.get? i = some c then some i else acc) none

/-- `os.path.splitext(p)[1]` on POSIX: the extension starts at the last
dot that comes after the last path separator, unless every character
between the separator and that dot is itself a dot (hidden files like
`".bashrc"` have no extension). -/
def splitextExt (p : String) : String :=
  let l := p.data
  let sepIdx : Option Nat := lastIdx '/' l
  match lastIdx '.' l with
  | none => ""
  | some dotIdx =>
    let fileStart := match sepIdx with
      | none => 0
      | some s => s + 1
    if sepIdx.elim true (fun s => decide (s < dotIdx)) then
      -- some non-dot character must sit strictly between fileStart and dotIdx
      if (List.range (dotIdx - fileStart)).any
           (fun k => l.get? (fileStart + k) != some '.') then
        ⟨l.drop dotIdx⟩
      else ""
    else ""

/-- ASCII lower-casing of one character (Python `str.lower` restricted to
ASCII; all inputs of interest are ASCII media types and extensions). -/
def pyLowerChar (c : Char) : Char :=
  if 'A' ≤ c ∧ c ≤ 'Z' then Char.ofNat (c.toNat + 32) else c

/-- Python `str.lower` (ASCII fragment). -/
def pyLower (s : String) : String := ⟨s.data.map pyLowerChar⟩

/-- The whitespace characters stripped by Python `str.strip()`. -/
def pyWhitespace : List Char :=
  [' ', '\t', '\n', '\r', Char.ofNat 11, Char.ofNat 12]

/-- Python `str.strip()` (whitespace at both ends). -/
def pyStrip (s : String) : String :=
  ⟨((s.data.dropWhile pyWhitespace.contains).reverse.dropWhile
      pyWhitespace.contains).reverse⟩

/-- `content_type.split(";")[0]`: the part before the first `';'`. -/
def beforeSemicolon (s : String) : String :=
  ⟨s.data.takeWhile (· != ';')⟩

/-! ## `events/validators.py` -/

/-- `DEFAULT_MAX_UPLOAD_SIZE = 15 * 1024 * 1024`. -/
def DEFAULT_MAX_UPLOAD_SIZE : Nat := 15 * 1024 * 1024

def DEFAULT_ALLOWED_CONTENT_TYPES : List String :=
  ["image/jpeg", "image/png", "image/heic", "image/heif",
   "image/heic-sequence", "image/heif-sequence"]

def DEFAULT_ALLOWED_EXTENSIONS : List String :=
  [".jpg", ".jpeg", ".png", ".heic", ".heif"]

/-- The three relevant Django settings of `validate_photo_image`
(`PHOTO_MAX_UPLOAD_SIZE`, `PHOTO_ALLOWED_CONTENT_TYPES`,
`PHOTO_ALLOWED_EXTENSIONS`), with the module defaults as fallback. -/
structure ValidatorConfig where
  max_size : Nat
  allowed_types : List String
  allowed_exts : List String
deriving Repr, DecidableEq

def defaultValidatorConfig : ValidatorConfig :=
  { max_size := DEFAULT_MAX_UPLOAD_SIZE
    allowed_types := DEFAULT_ALLOWED_CONTENT_TYPES
    allowed_exts := DEFAULT_ALLOWED_EXTENSIONS }

/-- A candidate upload file object: `content_type`, `name` and `size`
attributes as read with `getattr` (absent attribute = `none`; Python
`None` for `size` = `none` as well). -/
structure UploadPayload where
  content_type : Option String
  name : String
  size : Option Nat
deriving Repr, DecidableEq

/-- Python `sorted` over strings (code-point order, stable). -/
def sortStrings (l : List String) : List String :=
  l.insertionSort (· ≤ ·)

/-- `sorted(set(allowed_types) | set(allowed_exts))`: the union of the two
allow lists, without duplicates, sorted. -/
def allowedDisplay (types exts : List String) : List String :=
  sortStrings ((types ++ exts).dedup)

/-- Outcome of `validate_photo_image`: return the value, raise the
unsupported-type `ValidationError` (carrying the displayed allow list),
or raise the too-large `ValidationError` (carrying `readable_limit`,
i.e. `round(max_size / (1024 * 1024), 1)`, in tenths of a MB). -/
inductive ValidateResult where
  | ok
  | unsupportedType (types : List String)
  | tooLarge (limitTenthsMB : Nat)
deriving Repr, DecidableEq

/-- `round(max_size / (1024 * 1024), 1)` as a number of tenths of a MB
(round half to even, as Python's `round`). -/
def readableLimitTenths (max_size : Nat) : Nat :=
  let num := max_size * 10
  let den := 1024 * 1024
  let q := num / den
  let r := num % den
  if 2 * r < den then q
  else if den < 2 * r then q + 1
  else if q % 2 = 0 then q else q + 1

/-- `content_type.split(";")[0].strip().lower()`. -/
def normalizeContentType (ct : String) : String :=
  pyLower (pyStrip (beforeSemicolon ct))

/-- The `is_allowed_type` boolean of `validate_photo_image`:
`content_type = getattr(value, "content_type", "") or ""` is normalized
(part before `';'`, stripped, lowered) and looked up in the lowered
allow list; an empty content type never matches. -/
def is_allowed_type (cfg : ValidatorConfig) (value : UploadPayload) : Bool :=
  let content_type := value.content_type.getD ""
  let normalized_content_type :=
    if content_type ≠ "" then normalizeContentType content_type else ""
  let allowed_normalized := cfg.allowed_types.map pyLower
  if normalized_content_type ≠ "" then
    allowed_normalized.contains normalized_content_type
  else false

/-- The `is_allowed_extension` boolean of `validate_photo_image`:
`extension = os.path.splitext(name)[1].lower()` looked up in the lowered
extension allow list. -/
def is_allowed_extension (cfg : ValidatorConfig) (value : UploadPayload) : Bool :=
  let extension := pyLower (splitextExt value.name)
  let allowed_exts_lower := cfg.allowed_exts.map pyLower
  allowed_exts_lower.contains extension

/-- `validate_photo_image(value)` from `events/validators.py`. -/
def validate_photo_image (cfg : ValidatorConfig) (value : UploadPayload) :
    ValidateResult :=
  if ¬ (is_allowed_type cfg value || is_allowed_extension cfg value) then
    .unsupportedType (allowedDisplay cfg.allowed_types cfg.allowed_exts)
  else
    -- file_size = getattr(value, "size", None); `if file_size and ...`
    match value.size with
    | none => .ok
    | some n =>
      if n ≠ 0 ∧ cfg.max_size < n then
        .tooLarge (readableLimitTenths cfg.max_size)
      else .ok

/-! ## Data model (`events/models.py`) -/

/-- A naive timestamp (no sub-second part), enough to express Django's
`strftime('%Y-%m-%d %H:%M:%S')` and `isoformat()` on the fields the
manifests use. -/
structure DateTime where
  year : Nat
  month : Nat
  day : Nat
  hour : Nat
  minute : Nat
  second : Nat
deriving Repr, DecidableEq

/-- The fields of an `Event` row consulted by the verified views
(the presentation fields play no role in the claims). -/
structure EventRecord where
  slug : String
  is_active : Bool
deriving Repr, DecidableEq

/-- The fields of a `Photo` row relevant to upload and export.  `image`
is the stored file name; `none` models a falsy `ImageField`. -/
structure PhotoRecord where
  image : Option String
  comment : String
  uploaded_at : Option DateTime
  uploader_ip : Option String
deriving Repr, DecidableEq

/-- The two tables the verified views touch; a stored photo is paired
with the slug of its owning event (`Photo.event`). -/
structure Db where
  events : List EventRecord
  photos : List (String × PhotoRecord)
deriving Repr, DecidableEq

/-! ## `events/views.py` -/

/-- One guest request to the upload view: HTTP method, the uploaded file
(if any), the comment field, and the two network-origin headers. -/
structure UploadRequest where
  method_post : Bool
  image : Option UploadPayload
  comment : String
  http_x_forwarded_for : Option String
  remote_addr : Option String
deriving Repr, DecidableEq

/-- `forwarded_for.split(",")[0]`: the part before the first `','`. -/
def beforeComma (s : String) : String :=
  ⟨s.data.takeWhile (· != ',')⟩

/-- `get_client_ip(request)` from `events/views.py`: first entry of
`X-Forwarded-For` when that header is present and truthy, else
`REMOTE_ADDR`. -/
def get_client_ip (req : UploadRequest) : Option String :=
  match req.http_x_forwarded_for with
  | some ff =>
    if ff ≠ "" then some (pyStrip (beforeComma ff)) else req.remote_addr
  | none => req.remote_addr

/-- The observable outcome of `event_upload`: 404, the inactive-event
page, the upload form (re-)render, or the redirect to the thanks page. -/
inductive UploadOutcome where
  | notFound
  | inactivePage (slug : String)
  | uploadForm (withErrors : Bool)
  | successRedirect (slug : String)
deriving Repr, DecidableEq

/-- `event_upload(request, slug)` from `events/views.py`.  Django's
`Event.objects.get(slug=slug, is_active=True)` / `get(slug=slug)` are
modelled by `find?` over the event table (slugs are unique).  On a valid
POST the new `Photo` row is appended to the photo table stamped with the
client IP and the current time; the storage-level renaming of the image
file (`event_photo_upload_to`) is not modelled, the uploaded name is kept. -/
def event_upload (db : Db) (req : UploadRequest) (slug : String)
    (cfg : ValidatorConfig) (now : DateTime) : UploadOutcome × Db :=
  match db.events.find? (fun e => e.slug == slug && e.is_active) with
  | none =>
    match db.events.find? (fun e => e.slug == slug) with
    | some e => (.inactivePage e.slug, db)
    | none => (.notFound, db)
  | some event =>
    if req.method_post then
      match req.image with
      | none => (.uploadForm true, db)
      | some img =>
        match validate_photo_image cfg img with
        | .ok =>
          let photo : PhotoRecord :=
            { image := some img.name
              comment := req.comment
              uploaded_at := some now
              uploader_ip := get_client_ip req }
          (.successRedirect event.slug,
           { db with photos := db.photos ++ [(event.slug, photo)] })
        | _ => (.uploadForm true, db)
    else (.uploadForm false, db)

/-! ## `events/utils.py` -/

/-- The settings and environment `generate_event_qr_code` consults:
whether `import qrcode` succeeds, `settings.EVENT_BASE_URL` (an empty
string models a blank/unset setting), `settings.MEDIA_ROOT` and
`settings.MEDIA_URL`. -/
structure QrEnv where
  qrcode_available : Bool
  event_base_url : String
  media_root : String
  media_url : String
deriving Repr, DecidableEq

/-- Python `str.rstrip("/")`. -/
def rstripSlash (s : String) : String :=
  ⟨(s.data.reverse.dropWhile (· == '/')).reverse⟩

/-- `reverse("events:event-upload", kwargs={"slug": event.slug})`
resolves the pattern `e/<slug:slug>/upload/` of `events/urls.py`. -/
def eventUploadPath (slug : String) : String := "/e/" ++ slug ++ "/upload/"

/-- `get_event_qr_paths(event_slug)` from `events/utils.py`: the media
file path `MEDIA_ROOT / "qrcodes" / f"{event_slug}.png"` and the public
URL `MEDIA_URL + relative_path`. -/
def get_event_qr_paths (env : QrEnv) (event_slug : String) :
    String × String :=
  let relative_path := "qrcodes/" ++ event_slug ++ ".png"
  (env.media_root ++ "/" ++ relative_path, env.media_url ++ relative_path)

/-- Outcome of `generate_event_qr_code`: the `RuntimeError` when
`import qrcode` fails, the `ValueError` when the effective base URL is
empty, or the returned image path on success. -/
inductive QrResult where
  | importError
  | configError
  | saved (path : String)
deriving Repr, DecidableEq

/-- A flat file system: path to file content.  The QR image is fully
determined by the URL it encodes, so a written image is modelled by that
target URL. -/
def FileSys := List (String × String)

/-- `img.save(qr_image_path)`: (over)write one path. -/
def writeFile (fs : FileSys) (path content : String) : FileSys :=
  (path, content) :: fs.filter (fun kv => kv.1 != path)

def readFile (fs : FileSys) (path : String) : Option String :=
  (fs.find? (fun kv => kv.1 == path)).map (·.2)

/-- `base_url or settings.EVENT_BASE_URL` (Python `or`: an empty-string
or `None` argument falls back to the setting). -/
def chosenBase (env : QrEnv) (base_url : Option String) : String :=
  match base_url with
  | some b => if b ≠ "" then b else env.event_base_url
  | none => env.event_base_url

/-- `generate_event_qr_code(event, base_url)` from `events/utils.py`,
acting on the modelled file system and returning the outcome with the
updated file system. -/
def generate_event_qr_code (env : QrEnv) (event_slug : String)
    (base_url : Option String) (fs : FileSys) : QrResult × FileSys :=
  if ¬ env.qrcode_available then (.importError, fs)
  else
    let base := rstripSlash (chosenBase env base_url)
    if base = "" then (.configError, fs)
    else
      let qr_target_url := base ++ eventUploadPath event_slug
      let qr_image_path := (get_event_qr_paths env event_slug).1
      (.saved qr_image_path, writeFile fs qr_image_path qr_target_url)

/-! ## `events/admin_views.py` — the export bundler -/

/-- Zero-padding to a minimum width, as in `f"{idx:04d}"` and the
`strftime` field directives. -/
def padNum (width n : Nat) : String :=
  let s := toString n
  ⟨List.replicate (width - s.length) '0'⟩ ++ s

/-- `uploaded_at.strftime('%Y-%m-%d %H:%M:%S')`. -/
def strftimeYmdHMS (dt : DateTime) : String :=
  padNum 4 dt.year ++ "-" ++ padNum 2 dt.month ++ "-" ++ padNum 2 dt.day ++
    " " ++ padNum 2 dt.hour ++ ":" ++ padNum 2 dt.minute ++ ":" ++
    padNum 2 dt.second

/-- `isoformat()` on the modelled (second-precision, naive) timestamp. -/
def isoformat (dt : DateTime) : String :=
  padNum 4 dt.year ++ "-" ++ padNum 2 dt.month ++ "-" ++ padNum 2 dt.day ++
    "T" ++ padNum 2 dt.hour ++ ":" ++ padNum 2 dt.minute ++ ":" ++
    padNum 2 dt.second

/-- `os.path.basename`: the part after the last `'/'`. -/
def basename (p : String) : String :=
  ⟨(p.data.reverse.takeWhile (· != '/')).reverse⟩

/-- Mixed-radix encoding of a (valid) timestamp; strictly monotone in
lexicographic field order, so it serves as the sort key for
`order_by('uploaded_at')`. -/
def DateTime.key (dt : DateTime) : Nat :=
  ((((dt.year * 13 + dt.month) * 32 + dt.day) * 25 + dt.hour) * 61 +
      dt.minute) * 61 + dt.second

/-- Sort key of an optional timestamp (a null timestamp sorts first). -/
def atKey : Option DateTime → Nat
  | none => 0
  | some dt => 1 + dt.key

/-- The comparison behind `order_by('uploaded_at')` (ascending). -/
def uploadedBefore (a b : PhotoRecord) : Prop :=
  atKey a.uploaded_at ≤ atKey b.uploaded_at

instance : DecidableRel uploadedBefore := fun _ _ => Nat.decLe _ _

instance : IsTotal PhotoRecord uploadedBefore :=
  ⟨fun _ _ => Nat.le_total _ _⟩

instance : IsTrans PhotoRecord uploadedBefore :=
  ⟨fun _ _ _ => Nat.le_trans⟩

/-- `event.photos.order_by('uploaded_at')` (a stable ascending sort). -/
def orderByUploadedAt (photos : List PhotoRecord) : List PhotoRecord :=
  photos.insertionSort uploadedBefore

/-- The `Event` row together with its related photos, as the export view
reads them. -/
structure ExportEvent where
  name : String
  slug : String
  start_time : Option DateTime
  end_time : Option DateTime
  photos : List PhotoRecord
deriving Repr, DecidableEq

/-- `django.core.files.storage.default_storage`, restricted to what the
export uses: existence check and read.  `read nm = none` models an
exception raised while opening/reading the file. -/
structure Storage where
  exists_ : String → Bool
  read : String → Option String

/-- Python `enumerate(photos, start)`. -/
def enumFrom (start : Nat) : List α → List (Nat × α)
  | [] => []
  | a :: l => (start, a) :: enumFrom (start + 1) l

/-- `f"photos/{idx:04d}_{original_filename}"`. -/
def zipPhotoName (idx : Nat) (original_filename : String) : String :=
  "photos/" ++ padNum 4 idx ++ "_" ++ original_filename

/-- One photo file stored in the archive: the enumeration index its name
was built from, the archive entry name, and the file content. -/
structure ZipPhotoEntry where
  idx : Nat
  name : String
  content : String
deriving Repr, DecidableEq

/-- The first loop of `admin_download_event_data`: for each photo (in
order, enumerated from 1), if the image field is truthy, the storage path
exists and the file can be read, write `photos/NNNN_<basename>`;
otherwise skip the photo (`continue`). -/
def buildZipPhotoEntries (storage : Storage) (photos : List PhotoRecord) :
    List ZipPhotoEntry :=
  (enumFrom 1 photos).filterMap fun p =>
    match p.2.image with
    | none => none
    | some img_name =>
      if storage.exists_ img_name then
        match storage.read img_name with
        | some content =>
          some ⟨p.1, zipPhotoName p.1 (basename img_name), content⟩
        | none => none
      else none

/-- One data row of `comments.csv`. -/
structure CsvRow where
  number : Nat
  filename : String
  comment : String
  uploaded_at : String
  uploader_ip : String
deriving Repr, DecidableEq

/-- The header row of `comments.csv`. -/
def csvHeader : List String :=
  ["Photo Number", "Filename", "Comment", "Uploaded At", "Uploader IP"]

/-- The row written for photo number `idx`: basename of the stored file
(or a placeholder name when the image field is falsy), `comment or ''`
(identity on strings), formatted timestamp or empty, IP or empty. -/
def csvRowFor (idx : Nat) (p : PhotoRecord) : CsvRow :=
  { number := idx
    filename := match p.image with
      | some nm => basename nm
      | none => "photo_" ++ toString idx ++ ".jpg"
    comment := p.comment
    uploaded_at := match p.uploaded_at with
      | some dt => strftimeYmdHMS dt
      | none => ""
    uploader_ip := match p.uploader_ip with
      | some ip => if ip = "" then "" else ip
      | none => "" }

/-- The second loop of `admin_download_event_data`: one CSV row per photo,
enumerated from 1. -/
def buildCsvRows (photos : List PhotoRecord) : List CsvRow :=
  (enumFrom 1 photos).map fun p => csvRowFor p.1 p.2

/-- One element of the `photos` array of `metadata.json`. -/
structure JsonPhoto where
  number : Nat
  filename : String
  comment : String
  uploaded_at : Option String
  uploader_ip : Option String
deriving Repr, DecidableEq

/-- The JSON object for photo number `idx` (`null` fields are `none`). -/
def jsonPhotoFor (idx : Nat) (p : PhotoRecord) : JsonPhoto :=
  { number := idx
    filename := match p.image with
      | some nm => basename nm
      | none => "photo_" ++ toString idx ++ ".jpg"
    comment := p.comment
    uploaded_at := p.uploaded_at.map isoformat
    uploader_ip := match p.uploader_ip with
      | some ip => if ip = "" then none else some ip
      | none => none }

/-- `metadata.json`. -/
structure JsonMeta where
  event_name : String
  event_slug : String
  start_time : Option String
  end_time : Option String
  photos : List JsonPhoto
  total_photos : Nat
  exported_at : String
deriving Repr, DecidableEq

/-- The `json_data` dictionary of `admin_download_event_data`
(`total_photos` is `photos.count()`, the length of the ordered list). -/
def buildJsonMeta (event : ExportEvent) (ordered : List PhotoRecord)
    (exportedAt : DateTime) : JsonMeta :=
  { event_name := event.name
    event_slug := event.slug
    start_time := event.start_time.map isoformat
    end_time := event.end_time.map isoformat
    photos := (enumFrom 1 ordered).map fun p => jsonPhotoFor p.1 p.2
    total_photos := ordered.length
    exported_at := isoformat exportedAt }

/-- Outcome of `admin_download_event_data`: the no-photos warning (with a
redirect, no archive), or the assembled archive — photo file entries,
`comments.csv` (header plus rows) and `metadata.json`. -/
inductive ExportResult where
  | noPhotosWarning
  | archive (photoEntries : List ZipPhotoEntry) (header : List String)
      (rows : List CsvRow) (meta : JsonMeta)
deriving Repr, DecidableEq

/-- `admin_download_event_data(request, event_id)` from
`events/admin_views.py`, past the event lookup: order the photos by
upload time; if there are none, warn and bail out; otherwise build the
archive contents. -/
def admin_download_event_data (event : ExportEvent) (storage : Storage)
    (exportedAt : DateTime) : ExportResult :=
  let photos := orderByUploadedAt event.photos
  if photos.isEmpty then .noPhotosWarning
  else
    .archive (buildZipPhotoEntries storage photos) csvHeader
      (buildCsvRows photos) (buildJsonMeta event photos exportedAt)

/-- A photo whose backing file the export can actually copy: truthy image
field, existing storage path, readable content. -/
def readableFile (storage : Storage) (p : PhotoRecord) : Bool :=
  match p.image with
  | some nm => storage.exists_ nm && (storage.read nm).isSome
  | none => false

/-! ## Concrete example data (used by the witnesses) -/

/-- Uploaded first, no comment. -/
def examplePhotoA : PhotoRecord :=
  { image := some "photos/wedding/a.jpg"
    comment := ""
    uploaded_at := some ⟨2026, 1, 1, 10, 0, 0⟩
    uploader_ip := some "10.0.0.1" }

/-- Uploaded second, comment "hello". -/
def examplePhotoHello : PhotoRecord :=
  { image := some "photos/wedding/b.jpg"
    comment := "hello"
    uploaded_at := some ⟨2026, 1, 1, 11, 0, 0⟩
    uploader_ip := none }

/-- Uploaded third; its backing file is missing from storage. -/
def examplePhotoBad : PhotoRecord :=
  { image := some "photos/wedding/missing.jpg"
    comment := "lost"
    uploaded_at := some ⟨2026, 1, 1, 12, 0, 0⟩
    uploader_ip := none }

/-- Storage where `missing.jpg` does not exist and every other path reads
back a content derived from its name. -/
def exampleStorage : Storage :=
  { exists_ := fun nm => nm != "photos/wedding/missing.jpg"
    read := fun nm => some ("bytes:" ++ nm) }

/-- An event holding the three photos, stored out of upload order. -/
def exampleEvent : ExportEvent :=
  { name := "Wedding"
    slug := "wedding"
    start_time := none
    end_time := none
    photos := [examplePhotoHello, examplePhotoA, examplePhotoBad] }

/-! ## Theorems -/

/-- Among events with pairwise distinct slugs, two members sharing a slug
coincide. -/
theorem slug_unique {l : List EventRecord}
    (h : l.Pairwise (fun a b => a.slug ≠ b.slug)) {a b : EventRecord}
    (ha : a ∈ l) (hb : b ∈ l) (hab : a.slug = b.slug) : a = b := by
  induction l with
  | nil => cases ha
  | cons x xs ih =>
    rcases List.pairwise_cons.mp h with ⟨hx, hxs⟩
    rcases List.mem_cons.mp ha with rfl | ha' <;>
      rcases List.mem_cons.mp hb with rfl | hb'
    · rfl
    · exact absurd hab (hx _ hb')
    · exact absurd hab.symm (hx _ ha')
    · exact ih hxs ha' hb'

/-- Everything `allowedDisplay` shows is exactly the union of the two
allow lists. -/
theorem mem_allowedDisplay {a : String} {types exts : List String} :
    a ∈ allowedDisplay types exts ↔ a ∈ types ∨ a ∈ exts := by
  unfold allowedDisplay sortStrings
  rw [(List.perm_insertionSort _ _).mem_iff, List.mem_dedup, List.mem_append]

/-- C1: for a payload passing the content-type/extension allow test, a
declared size equal to the configured ceiling is accepted, while a size one
byte over the ceiling is rejected with the size error naming the limit in MB
(`round(max_size / 2^20, 1)`, here in tenths of a MB). -/
theorem size_ceiling_boundary (cfg : ValidatorConfig) (value : UploadPayload)
    (h : (is_allowed_type cfg value || is_allowed_extension cfg value) = true) :
    validate_photo_image cfg { value with size := some cfg.max_size } = .ok ∧
    validate_photo_image cfg { value with size := some (cfg.max_size + 1) } =
      .tooLarge (readableLimitTenths cfg.max_size) := by
  have ht : ∀ s, is_allowed_type cfg { value with size := s } =
      is_allowed_type cfg value := fun _ => rfl
  have he : ∀ s, is_allowed_extension cfg { value with size := s } =
      is_allowed_extension cfg value := fun _ => rfl
  constructor
  · simp only [validate_photo_image, ht, he, h]
    simp
  · simp only [validate_photo_image, ht, he, h]
    simp

/-- Witness for C1 at the default configuration: a JPEG payload of exactly
15 MiB is accepted, one of 15 MiB + 1 byte is rejected naming 15.0 MB. -/
theorem size_ceiling_boundary_witness :
    validate_photo_image defaultValidatorConfig
      ⟨some "image/jpeg", "a.jpg", some (15 * 1024 * 1024)⟩ = .ok ∧
    validate_photo_image defaultValidatorConfig
      ⟨some "image/jpeg", "a.jpg", some (15 * 1024 * 1024 + 1)⟩ =
        .tooLarge 150 := by
  have h := size_ceiling_boundary defaultValidatorConfig
    ⟨some "image/jpeg", "a.jpg", none⟩ (by decide)
  exact ⟨h.1, h.2.trans (by decide)⟩

/-- C2 counterexample: a payload whose declared content-type is in the
default allow list (`image/jpeg`) is nevertheless not accepted when its
declared size exceeds the ceiling; the claim's unconditional "accepts it
when either ... matches" fails at this input. -/
theorem allowlist_acceptance_counterexample :
    is_allowed_type defaultValidatorConfig
      ⟨some "image/jpeg", "big.jpg", some (15 * 1024 * 1024 + 1)⟩ = true ∧
    validate_photo_image defaultValidatorConfig
      ⟨some "image/jpeg", "big.jpg", some (15 * 1024 * 1024 + 1)⟩ ≠ .ok := by
  decide

/-- C2 (amended): provided the declared size does not exceed the ceiling
(or is falsy), a payload whose normalized content-type or lowered filename
extension is allow-listed is accepted; when neither test matches, the
validator rejects with the unsupported-type error whose displayed list
contains every allowed content-type and every allowed extension. -/
theorem allowlist_decision (cfg : ValidatorConfig) (value : UploadPayload) :
    ((is_allowed_type cfg value || is_allowed_extension cfg value) = true →
      (∀ n, value.size = some n → n = 0 ∨ n ≤ cfg.max_size) →
      validate_photo_image cfg value = .ok) ∧
    ((is_allowed_type cfg value || is_allowed_extension cfg value) = false →
      validate_photo_image cfg value =
        .unsupportedType (allowedDisplay cfg.allowed_types cfg.allowed_exts) ∧
      (∀ t ∈ cfg.allowed_types,
        t ∈ allowedDisplay cfg.allowed_types cfg.allowed_exts) ∧
      (∀ e ∈ cfg.allowed_exts,
        e ∈ allowedDisplay cfg.allowed_types cfg.allowed_exts)) := by
  constructor
  · intro h hsize
    unfold validate_photo_image
    rw [h]
    cases hs : value.size with
    | none => simp
    | some n =>
      rcases hsize n hs with h0 | hle
      · simp [h0]
      · have : ¬ (n ≠ 0 ∧ cfg.max_size < n) := by omega
        simp [this]
  · intro h
    refine ⟨?_, ?_, ?_⟩
    · unfold validate_photo_image
      rw [h]
      simp
    · exact fun t ht => mem_allowedDisplay.mpr (Or.inl ht)
    · exact fun e he => mem_allowedDisplay.mpr (Or.inr he)

/-- Witness for the amended C2: an in-budget JPEG is accepted; a plain-text
payload with a `.txt` name is rejected with the full allow-list display. -/
theorem allowlist_decision_witness :
    validate_photo_image defaultValidatorConfig
      ⟨some "image/jpeg", "ok.jpg", some 100⟩ = .ok ∧
    validate_photo_image defaultValidatorConfig
      ⟨some "text/plain", "notes.txt", some 100⟩ =
      .unsupportedType
        (allowedDisplay DEFAULT_ALLOWED_CONTENT_TYPES DEFAULT_ALLOWED_EXTENSIONS) := by
  constructor
  · exact (allowlist_decision defaultValidatorConfig
      ⟨some "image/jpeg", "ok.jpg", some 100⟩).1 (by decide)
      (fun n hn => by cases hn; right; decide)
  · exact ((allowlist_decision defaultValidatorConfig
      ⟨some "text/plain", "notes.txt", some 100⟩).2 (by decide)).1

/-- C9: a payload whose declared size is absent (`None`, or no `size`
attribute) or zero never triggers the size-limit error, whatever the
configured ceiling is. -/
theorem falsy_size_no_size_error (cfg : ValidatorConfig)
    (value : UploadPayload)
    (h : value.size = none ∨ value.size = some 0) (t : Nat) :
    validate_photo_image cfg value ≠ .tooLarge t := by
  unfold validate_photo_image
  rcases h with h | h <;> rw [h] <;> split <;> simp

/-- Witness for C9: with a ceiling of zero bytes, a declared size of zero
still does not produce the size error. -/
theorem falsy_size_no_size_error_witness :
    validate_photo_image
      ⟨0, DEFAULT_ALLOWED_CONTENT_TYPES, DEFAULT_ALLOWED_EXTENSIONS⟩
      ⟨some "image/jpeg", "a.jpg", some 0⟩ ≠ .tooLarge 0 :=
  falsy_size_no_size_error _ ⟨some "image/jpeg", "a.jpg", some 0⟩
    (Or.inr rfl) 0

/-- C4: with unique slugs, an upload request for a slug whose event is
inactive renders the inactive-event page and leaves the database (in
particular the photo table) unchanged, whatever the request (a POST with a
valid file included); a request for a slug owned by no event yields the
not-found outcome. -/
theorem upload_inactive_or_missing (db : Db) (req : UploadRequest)
    (slug : String) (cfg : ValidatorConfig) (now : DateTime)
    (huniq : db.events.Pairwise (fun a b => a.slug ≠ b.slug)) :
    ((∃ e ∈ db.events, e.slug = slug ∧ e.is_active = false) →
      event_upload db req slug cfg now = (.inactivePage slug, db)) ∧
    ((∀ e ∈ db.events, e.slug ≠ slug) →
      event_upload db req slug cfg now = (.notFound, db)) := by
  constructor
  · rintro ⟨e, he, hslug, hinact⟩
    have hact : db.events.find? (fun x => x.slug == slug && x.is_active)
        = none := by
      rw [List.find?_eq_none]
      intro x hxmem hx
      rw [Bool.and_eq_true, beq_iff_eq] at hx
      have hxe : x = e := slug_unique huniq hxmem he (hx.1.trans hslug.symm)
      rw [hxe, hinact] at hx
      exact Bool.false_ne_true hx.2
    have hsome : (db.events.find? (fun x => x.slug == slug)).isSome := by
      rw [List.find?_isSome]
      exact ⟨e, he, by rw [beq_iff_eq]; exact hslug⟩
    obtain ⟨x, hx⟩ := Option.isSome_iff_exists.mp hsome
    have hxs : x.slug = slug := by
      have hpx := List.find?_some hx
      rwa [beq_iff_eq] at hpx
    simp [event_upload, hact, hx, hxs]
  · intro hall
    have h1 : db.events.find? (fun x => x.slug == slug && x.is_active)
        = none := by
      rw [List.find?_eq_none]
      intro x hxmem hx
      rw [Bool.and_eq_true, beq_iff_eq] at hx
      exact hall x hxmem hx.1
    have h2 : db.events.find? (fun x => x.slug == slug) = none := by
      rw [List.find?_eq_none]
      intro x hxmem hx
      exact hall x hxmem (beq_iff_eq.mp hx)
    simp [event_upload, h1, h2]

/-- Witness for C4: a POST with a valid JPEG to an inactive event's slug
renders the inactive page and stores nothing; the same POST to an unknown
slug is a 404. -/
theorem upload_inactive_or_missing_witness :
    event_upload ⟨[⟨"party", false⟩], []⟩
      ⟨true, some ⟨some "image/jpeg", "a.jpg", some 1⟩, "hi", none,
        some "1.2.3.4"⟩
      "party" defaultValidatorConfig ⟨2026, 1, 1, 0, 0, 0⟩ =
      (.inactivePage "party", ⟨[⟨"party", false⟩], []⟩) ∧
    event_upload ⟨[⟨"party", false⟩], []⟩
      ⟨true, some ⟨some "image/jpeg", "a.jpg", some 1⟩, "hi", none,
        some "1.2.3.4"⟩
      "ghost" defaultValidatorConfig ⟨2026, 1, 1, 0, 0, 0⟩ =
      (.notFound, ⟨[⟨"party", false⟩], []⟩) := by
  constructor
  · exact (upload_inactive_or_missing _ _ _ _ _ (by decide)).1
      ⟨⟨"party", false⟩, by decide, rfl, rfl⟩
  · exact (upload_inactive_or_missing _ _ _ _ _ (by decide)).2 (by decide)

/-- Reading a path just written returns the written content. -/
theorem readFile_writeFile (fs : FileSys) (path content : String) :
    readFile (writeFile fs path content) path = some content := by
  simp [readFile, writeFile, List.find?]

/-- C6: the QR generator fails with the dependency error when the
`qrcode` library cannot be imported, and (the library being available)
with the configuration error when no base URL is configured — the
argument absent or empty and the `EVENT_BASE_URL` setting blank. -/
theorem qr_failure_modes (env : QrEnv) (slug : String)
    (base_url : Option String) (fs : FileSys) :
    (env.qrcode_available = false →
      generate_event_qr_code env slug base_url fs = (.importError, fs)) ∧
    (env.qrcode_available = true →
      (base_url = none ∨ base_url = some "") →
      env.event_base_url = "" →
      generate_event_qr_code env slug base_url fs = (.configError, fs)) := by
  constructor
  · intro h
    simp [generate_event_qr_code, h]
  · intro hav harg hset
    have hchosen : chosenBase env base_url = "" := by
      rcases harg with h | h <;> simp [chosenBase, h, hset]
    have hempty : rstripSlash (chosenBase env base_url) = "" := by
      rw [hchosen]
      decide
    simp [generate_event_qr_code, hav, hempty]

/-- Witness for C6 at concrete inputs: missing library gives the
dependency error; blank base URL everywhere gives the configuration
error. -/
theorem qr_failure_modes_witness :
    generate_event_qr_code ⟨false, "http://x", "/media", "/media/"⟩
      "party" none [] = (.importError, []) ∧
    generate_event_qr_code ⟨true, "", "/media", "/media/"⟩
      "party" none [] = (.configError, []) := by
  constructor
  · exact (qr_failure_modes ⟨false, "http://x", "/media", "/media/"⟩
      "party" none []).1 rfl
  · exact (qr_failure_modes ⟨true, "", "/media", "/media/"⟩
      "party" none []).2 rfl (Or.inl rfl) rfl

/-- C7: the destination path of a generated QR image is a function of the
slug alone (for fixed media settings): two successful generations for the
same slug — even with different base-URL arguments — report the same path,
namely `get_event_qr_paths`' media path, and after the second run the file
at that path holds the second run's encoding (the second write overwrites
the first). -/
theorem qr_idempotent_path (env : QrEnv) (slug : String)
    (b1 b2 : Option String) (fs : FileSys) (p1 p2 : String)
    (h1 : (generate_event_qr_code env slug b1 fs).1 = .saved p1)
    (h2 : (generate_event_qr_code env slug b2
            (generate_event_qr_code env slug b1 fs).2).1 = .saved p2) :
    p1 = p2 ∧ p1 = (get_event_qr_paths env slug).1 ∧
    readFile (generate_event_qr_code env slug b2
        (generate_event_qr_code env slug b1 fs).2).2 p1 =
      some (rstripSlash (chosenBase env b2) ++ eventUploadPath slug) := by
  by_cases hav : env.qrcode_available
  · by_cases hb1 : rstripSlash (chosenBase env b1) = ""
    · simp [generate_event_qr_code, hav, hb1] at h1
    · by_cases hb2 : rstripSlash (chosenBase env b2) = ""
      · simp [generate_event_qr_code, hav, hb1, hb2] at h2
      · have e1 : p1 = (get_event_qr_paths env slug).1 := by
          simp [generate_event_qr_code, hav, hb1] at h1
          exact h1.symm
        have e2 : p2 = (get_event_qr_paths env slug).1 := by
          simp [generate_event_qr_code, hav, hb1, hb2] at h2
          exact h2.symm
        refine ⟨e1.trans e2.symm, e1, ?_⟩
        rw [e1]
        simp [generate_event_qr_code, hav, hb1, hb2, readFile_writeFile]
  · simp [generate_event_qr_code, hav] at h1

/-- Witness for C7: generating twice for slug `party` (with different
base-URL arguments) writes to the identical path, and the file ends up
holding the second encoding. -/
theorem qr_idempotent_path_witness :
    ((generate_event_qr_code ⟨true, "http://a/", "/media", "/media/"⟩
        "party" none []).1 = QrResult.saved "/media/qrcodes/party.png") ∧
    readFile (generate_event_qr_code ⟨true, "http://a/", "/media", "/media/"⟩
        "party" (some "http://b")
        (generate_event_qr_code ⟨true, "http://a/", "/media", "/media/"⟩
          "party" none []).2).2 "/media/qrcodes/party.png" =
      some "http://b/e/party/upload/" := by
  have h := qr_idempotent_path ⟨true, "http://a/", "/media", "/media/"⟩
    "party" none (some "http://b") [] "/media/qrcodes/party.png"
    "/media/qrcodes/party.png" (by decide) (by decide)
  refine ⟨by decide, ?_⟩
  have := h.2.2
  rwa [show rstripSlash (chosenBase ⟨true, "http://a/", "/media", "/media/"⟩
    (some "http://b")) ++ eventUploadPath "party" = "http://b/e/party/upload/"
    from by decide] at this

/-- `enumerate` keeps the length. -/
theorem enumFrom_length (s : Nat) (l : List α) :
    (enumFrom s l).length = l.length := by
  induction l generalizing s with
  | nil => rfl
  | cons x xs ih => simp [enumFrom, ih]

/-- The `i`-th element of `enumerate(l, s)` is the `i`-th element of `l`
numbered `s + i`. -/
theorem enumFrom_get? (s : Nat) (l : List α) (i : Nat) :
    (enumFrom s l).get? i = (l.get? i).map (fun a => (s + i, a)) := by
  induction l generalizing s i with
  | nil => simp [enumFrom]
  | cons x xs ih =>
    cases i with
    | zero => simp [enumFrom]
    | succ n =>
      have harith : s + 1 + n = s + (n + 1) := by omega
      simp only [enumFrom, List.get?_cons_succ, ih (s + 1) n, harith]

/-- Membership in `enumerate(l, s)` pins the position: index `i` holds
element `a` exactly when `l` holds `a` at offset `i - s`. -/
theorem mem_enumFrom {s : Nat} {l : List α} {i : Nat} {a : α} :
    (i, a) ∈ enumFrom s l ↔ s ≤ i ∧ l.get? (i - s) = some a := by
  rw [List.mem_iff_get?]
  constructor
  · rintro ⟨j, hj⟩
    rw [enumFrom_get? s l j] at hj
    cases hlj : l.get? j with
    | none => rw [hlj] at hj; cases hj
    | some b =>
      rw [hlj] at hj
      obtain ⟨h1, h2⟩ := Prod.mk.injEq .. ▸ Option.some_inj.mp hj
      refine ⟨by omega, ?_⟩
      have : i - s = j := by omega
      rw [this, hlj, h2]
  · rintro ⟨hs, hget⟩
    refine ⟨i - s, ?_⟩
    rw [enumFrom_get? s l (i - s), hget]
    have : s + (i - s) = i := by omega
    simp [this]

/-- A position in an enumeration holds one element. -/
theorem enumFrom_functional {s : Nat} {l : List α} {i : Nat} {a b : α}
    (ha : (i, a) ∈ enumFrom s l) (hb : (i, b) ∈ enumFrom s l) : a = b := by
  obtain ⟨-, ha'⟩ := mem_enumFrom.mp ha
  obtain ⟨-, hb'⟩ := mem_enumFrom.mp hb
  exact Option.some_inj.mp (ha'.symm.trans hb')

/-- Indexing a map over an enumeration. -/
theorem map_enumFrom_get? {α β : Type _} (f : Nat × α → β) (s : Nat)
    (l : List α) (i : Nat) :
    ((enumFrom s l).map f).get? i =
      (l.get? i).map (fun a => f (s + i, a)) := by
  rw [List.get?_map, enumFrom_get?, Option.map_map]
  rfl

/-- What it takes for a photo file to land in the archive: a position in
the enumeration, a truthy image name, an existing path and readable
content — and then the entry carries that position's number in its
`photos/NNNN_<basename>` name. -/
theorem mem_buildZipPhotoEntries {storage : Storage}
    {photos : List PhotoRecord} {e : ZipPhotoEntry} :
    e ∈ buildZipPhotoEntries storage photos ↔
    ∃ j q nm c, (j, q) ∈ enumFrom 1 photos ∧ q.image = some nm ∧
      storage.exists_ nm = true ∧ storage.read nm = some c ∧
      e = ⟨j, zipPhotoName j (basename nm), c⟩ := by
  unfold buildZipPhotoEntries
  rw [List.mem_filterMap]
  constructor
  · rintro ⟨⟨j, q⟩, hq, hf⟩
    cases himg : q.image with
    | none => simp [himg] at hf
    | some nm =>
      by_cases hex : storage.exists_ nm = true
      · cases hrd : storage.read nm with
        | none => simp [himg, hex, hrd] at hf
        | some c =>
          simp only [himg, hex, hrd, if_true] at hf
          exact ⟨j, q, nm, c, hq, himg, hex, hrd,
            (Option.some_inj.mp hf).symm⟩
      · simp [himg, hex] at hf
  · rintro ⟨j, q, nm, c, hq, himg, hex, hrd, rfl⟩
    exact ⟨(j, q), hq, by simp [himg, hex, hrd]⟩

/-- An unreadable photo at position `idx` contributes no archive entry
numbered `idx`. -/
theorem no_entry_for_unreadable {storage : Storage}
    {photos : List PhotoRecord} {idx : Nat} {p : PhotoRecord}
    (hpos : (idx, p) ∈ enumFrom 1 photos)
    (hbad : readableFile storage p = false) :
    ∀ e ∈ buildZipPhotoEntries storage photos, e.idx ≠ idx := by
  intro e he hidx
  obtain ⟨j, q, nm, c, hq, himg, hex, hrd, rfl⟩ :=
    mem_buildZipPhotoEntries.mp he
  have hj : j = idx := hidx
  subst hj
  have hqp : q = p := enumFrom_functional hq hpos
  subst hqp
  simp [readableFile, himg, hex, hrd] at hbad

/-- Both manifests carry, at offset `idx - 1`, the row/object numbered
`idx` built from the photo sitting at position `idx` of the enumeration. -/
theorem manifest_entries_at {photos : List PhotoRecord} {idx : Nat}
    {p : PhotoRecord} (hpos : (idx, p) ∈ enumFrom 1 photos) :
    (buildCsvRows photos).get? (idx - 1) = some (csvRowFor idx p) ∧
    ((enumFrom 1 photos).map fun pr => jsonPhotoFor pr.1 pr.2).get?
        (idx - 1) = some (jsonPhotoFor idx p) := by
  obtain ⟨h1, hget⟩ := mem_enumFrom.mp hpos
  have hidx : 1 + (idx - 1) = idx := by omega
  constructor
  · rw [buildCsvRows, map_enumFrom_get?, hget]
    simp [hidx]
  · rw [map_enumFrom_get?, hget]
    simp [hidx]

/-- Decomposing a successful export into its three built components. -/
theorem archive_components {event : ExportEvent} {storage : Storage}
    {exportedAt : DateTime} {entries : List ZipPhotoEntry}
    {header : List String} {rows : List CsvRow} {meta : JsonMeta}
    (harch : admin_download_event_data event storage exportedAt =
      .archive entries header rows meta) :
    entries = buildZipPhotoEntries storage (orderByUploadedAt event.photos) ∧
    header = csvHeader ∧
    rows = buildCsvRows (orderByUploadedAt event.photos) ∧
    meta = buildJsonMeta event (orderByUploadedAt event.photos) exportedAt
    := by
  by_cases hemp : (orderByUploadedAt event.photos).isEmpty = true
  · rw [admin_download_event_data] at harch
    simp only [hemp, if_true] at harch
    cases harch
  · rw [admin_download_event_data] at harch
    simp only [hemp, if_false, Bool.false_eq_true] at harch
    obtain ⟨h1, h2, h3, h4⟩ := ExportResult.archive.injEq .. ▸ harch
    exact ⟨h1.symm, h2.symm, h3.symm, h4.symm⟩

/-- C5: exporting an event with zero photos produces the no-op warning
and no archive; the archive-building branch is not taken. -/
theorem export_no_photos (event : ExportEvent) (storage : Storage)
    (exportedAt : DateTime) (h : event.photos = []) :
    admin_download_event_data event storage exportedAt =
      .noPhotosWarning := by
  rw [admin_download_event_data]
  simp [orderByUploadedAt, h]

/-- Witness for C5 at a concrete photo-less event. -/
theorem export_no_photos_witness :
    admin_download_event_data ⟨"Wedding", "wedding", none, none, []⟩
      ⟨fun _ => true, fun _ => none⟩ ⟨2026, 2, 1, 0, 0, 0⟩ =
      .noPhotosWarning :=
  export_no_photos _ _ _ rfl

/-- C3: for an event with photos, the export yields an archive whose CSV
rows and JSON photo array list the photos in ascending upload-time order
(a permutation of the event's photos, pairwise ordered by upload time);
the row at 0-based offset `i` is the row numbered `i + 1` for the `i`-th
ordered photo — 1-based sequence number, basename of the stored file,
comment (empty if blank), `YYYY-MM-DD HH:MM:SS` timestamp or empty, IP or
empty (`csvRowFor` / `jsonPhotoFor`) — and `total_photos` equals the
number of the event's photos. -/
theorem export_manifests (event : ExportEvent) (storage : Storage)
    (exportedAt : DateTime) (h : event.photos ≠ []) :
    ∃ entries rows meta,
      admin_download_event_data event storage exportedAt =
        .archive entries csvHeader rows meta ∧
      (orderByUploadedAt event.photos).Perm event.photos ∧
      List.Pairwise uploadedBefore (orderByUploadedAt event.photos) ∧
      (∀ i p, (orderByUploadedAt event.photos).get? i = some p →
        rows.get? i = some (csvRowFor (i + 1) p) ∧
        meta.photos.get? i = some (jsonPhotoFor (i + 1) p)) ∧
      rows.length = event.photos.length ∧
      meta.total_photos = event.photos.length := by
  have hperm : (orderByUploadedAt event.photos).Perm event.photos :=
    List.perm_insertionSort uploadedBefore event.photos
  have hne' : (orderByUploadedAt event.photos).isEmpty = false := by
    cases hemp : (orderByUploadedAt event.photos).isEmpty
    · rfl
    · have hnil : orderByUploadedAt event.photos = [] :=
        List.isEmpty_iff.mp hemp
      have h2 : event.photos.Perm [] := by
        rw [← hnil]
        exact hperm.symm
      exact absurd h2.eq_nil h
  refine ⟨buildZipPhotoEntries storage (orderByUploadedAt event.photos),
    buildCsvRows (orderByUploadedAt event.photos),
    buildJsonMeta event (orderByUploadedAt event.photos) exportedAt,
    ?_, hperm, ?_, ?_, ?_, ?_⟩
  · rw [admin_download_event_data]
    simp only [hne', Bool.false_eq_true, if_false]
  · exact List.sorted_insertionSort uploadedBefore event.photos
  · intro i p hp
    have hpos : (i + 1, p) ∈ enumFrom 1 (orderByUploadedAt event.photos) := by
      rw [mem_enumFrom]
      exact ⟨by omega, by simpa using hp⟩
    have := manifest_entries_at hpos
    simpa [buildJsonMeta] using this
  · rw [buildCsvRows, List.length_map, enumFrom_length]
    exact hperm.length_eq
  · rw [buildJsonMeta]
    exact hperm.length_eq

/-- Witness for C3 at the concrete example event (photo with comment
"hello" uploaded after the uncommented one, listed out of order in the
table). -/
theorem export_manifests_witness :
    ∃ entries rows meta,
      admin_download_event_data exampleEvent exampleStorage
        ⟨2026, 2, 1, 0, 0, 0⟩ = .archive entries csvHeader rows meta ∧
      (orderByUploadedAt exampleEvent.photos).Perm exampleEvent.photos ∧
      List.Pairwise uploadedBefore (orderByUploadedAt exampleEvent.photos) ∧
      (∀ i p, (orderByUploadedAt exampleEvent.photos).get? i = some p →
        rows.get? i = some (csvRowFor (i + 1) p) ∧
        meta.photos.get? i = some (jsonPhotoFor (i + 1) p)) ∧
      rows.length = exampleEvent.photos.length ∧
      meta.total_photos = exampleEvent.photos.length :=
  export_manifests exampleEvent exampleStorage ⟨2026, 2, 1, 0, 0, 0⟩
    (by decide)

/-- C8: whenever the export produces an archive, a photo at position
`idx` of the ordered list whose backing file is missing or unreadable
gets no archive entry numbered `idx`, yet the CSV manifest still holds
its row (at offset `idx - 1`) and the JSON manifest its object; and every
readable photo of the list still gets its archive entry — one bad file
does not abort the loop. -/
theorem export_skips_unreadable (event : ExportEvent) (storage : Storage)
    (exportedAt : DateTime) (entries : List ZipPhotoEntry)
    (header : List String) (rows : List CsvRow) (meta : JsonMeta)
    (harch : admin_download_event_data event storage exportedAt =
      .archive entries header rows meta)
    (idx : Nat) (p : PhotoRecord)
    (hpos : (idx, p) ∈ enumFrom 1 (orderByUploadedAt event.photos))
    (hbad : readableFile storage p = false) :
    (∀ e ∈ entries, e.idx ≠ idx) ∧
    rows.get? (idx - 1) = some (csvRowFor idx p) ∧
    meta.photos.get? (idx - 1) = some (jsonPhotoFor idx p) ∧
    (∀ j q, (j, q) ∈ enumFrom 1 (orderByUploadedAt event.photos) →
      readableFile storage q = true →
      ∃ nm c, q.image = some nm ∧ storage.read nm = some c ∧
        (⟨j, zipPhotoName j (basename nm), c⟩ : ZipPhotoEntry) ∈ entries)
    := by
  obtain ⟨hent, -, hrows, hmeta⟩ := archive_components harch
  subst hent
  subst hrows
  subst hmeta
  refine ⟨no_entry_for_unreadable hpos hbad, (manifest_entries_at hpos).1,
    ?_, ?_⟩
  · simpa [buildJsonMeta] using (manifest_entries_at hpos).2
  · intro j q hq hread
    cases himg : q.image with
    | none => simp [readableFile, himg] at hread
    | some nm =>
      simp only [readableFile, himg, Bool.and_eq_true] at hread
      obtain ⟨hex, hsome⟩ := hread
      obtain ⟨c, hc⟩ := Option.isSome_iff_exists.mp hsome
      exact ⟨nm, c, rfl, hc,
        mem_buildZipPhotoEntries.mpr ⟨j, q, nm, c, hq, himg, hex, hc, rfl⟩⟩

/-- Witness for C8: in the example export the unreadable third photo gets
no archive entry numbered 3 but keeps its CSV row, and the readable first
photo keeps its archive entry. -/
theorem export_skips_unreadable_witness :
    (∀ e ∈ buildZipPhotoEntries exampleStorage
        (orderByUploadedAt exampleEvent.photos), e.idx ≠ 3) ∧
    (buildCsvRows (orderByUploadedAt exampleEvent.photos)).get? 2 =
      some (csvRowFor 3 examplePhotoBad) := by
  have h := export_skips_unreadable exampleEvent exampleStorage
    ⟨2026, 2, 1, 0, 0, 0⟩
    (buildZipPhotoEntries exampleStorage (orderByUploadedAt exampleEvent.photos))
    csvHeader
    (buildCsvRows (orderByUploadedAt exampleEvent.photos))
    (buildJsonMeta exampleEvent (orderByUploadedAt exampleEvent.photos)
      ⟨2026, 2, 1, 0, 0, 0⟩)
    rfl 3 examplePhotoBad (by decide) (by decide)
  exact ⟨h.1, h.2.1⟩

/-- C10: in a produced archive every photo file entry carries, in its
`photos/NNNN_<basename>` name, the same sequence number its photo bears in
both manifests — the number is the photo's 1-based position in the full
ordered list, assigned before any skipping; an unreadable photo at
position `idx` leaves a gap (no entry numbered `idx`) rather than
renumbering later entries. -/
theorem archive_numbering (event : ExportEvent) (storage : Storage)
    (exportedAt : DateTime) (entries : List ZipPhotoEntry)
    (header : List String) (rows : List CsvRow) (meta : JsonMeta)
    (harch : admin_download_event_data event storage exportedAt =
      .archive entries header rows meta) :
    (∀ e ∈ entries, ∃ p nm,
      (e.idx, p) ∈ enumFrom 1 (orderByUploadedAt event.photos) ∧
      p.image = some nm ∧ e.name = zipPhotoName e.idx (basename nm) ∧
      rows.get? (e.idx - 1) = some (csvRowFor e.idx p) ∧
      meta.photos.get? (e.idx - 1) = some (jsonPhotoFor e.idx p)) ∧
    (∀ idx p, (idx, p) ∈ enumFrom 1 (orderByUploadedAt event.photos) →
      readableFile storage p = false →
      ∀ e ∈ entries, e.idx ≠ idx) := by
  obtain ⟨hent, -, hrows, hmeta⟩ := archive_components harch
  subst hent
  subst hrows
  subst hmeta
  constructor
  · intro e he
    obtain ⟨j, q, nm, c, hq, himg, hex, hrd, rfl⟩ :=
      mem_buildZipPhotoEntries.mp he
    refine ⟨q, nm, ?_, ?_, ?_, ?_, ?_⟩
    · exact hq
    · exact himg
    · rfl
    · exact (manifest_entries_at hq).1
    · simpa [buildJsonMeta] using (manifest_entries_at hq).2
  · intro idx p hpos hbad
    exact no_entry_for_unreadable hpos hbad

/-- Witness for C10 on the example export: every entry's number equals its
photo's position in both manifests, and no entry is numbered 3 (the
unreadable photo's position). -/
theorem archive_numbering_witness :
    (∀ e ∈ buildZipPhotoEntries exampleStorage
        (orderByUploadedAt exampleEvent.photos), ∃ p nm,
      (e.idx, p) ∈ enumFrom 1 (orderByUploadedAt exampleEvent.photos) ∧
      p.image = some nm ∧ e.name = zipPhotoName e.idx (basename nm) ∧
      (buildCsvRows (orderByUploadedAt exampleEvent.photos)).get?
          (e.idx - 1) = some (csvRowFor e.idx p) ∧
      (buildJsonMeta exampleEvent (orderByUploadedAt exampleEvent.photos)
          ⟨2026, 2, 1, 0, 0, 0⟩).photos.get? (e.idx - 1) =
        some (jsonPhotoFor e.idx p)) ∧
    (∀ e ∈ buildZipPhotoEntries exampleStorage
        (orderByUploadedAt exampleEvent.photos), e.idx ≠ 3) := by
  have h := archive_numbering exampleEvent exampleStorage
    ⟨2026, 2, 1, 0, 0, 0⟩
    (buildZipPhotoEntries exampleStorage (orderByUploadedAt exampleEvent.photos))
    csvHeader
    (buildCsvRows (orderByUploadedAt exampleEvent.photos))
    (buildJsonMeta exampleEvent (orderByUploadedAt exampleEvent.photos)
      ⟨2026, 2, 1, 0, 0, 0⟩)
    rfl
  exact ⟨h.1, h.2 3 examplePhotoBad (by decide) (by decide)⟩

end Momentbasket
